import Mathlib

/-!
# Verified embedding of the autonomous-evolution-core pattern-learning engine

A shallow embedding of the JavaScript modules of the repository
`Admuad/autonomous-evolution-core`:

* `modules/learning-system.js` (error classifier, word-overlap similarity,
  workflow recorder, pattern miner / merger, suggestion ranker),
* `modules/pattern-extractor.js` (skill template extractor and merger),
* the community-share module (trending scorer), whose full source is quoted
  in `examples/README.md`.

Modelling conventions:

* JavaScript numbers that may be `undefined` or `NaN` are modelled by `JSNum`
  (exact rationals for finite values; the JS coercions `undefined → NaN` in
  arithmetic are made explicit).  Division by zero is mapped to `JSNum.nan`
  with a note where it would be `±Infinity` in JS; no modelled code path
  divides a finite number by zero.
* Optional JS object fields are `Option`s; a missing field is `none`
  (respectively `JSNum.undef` for numeric fields).
* `_generateId` (wall-clock + random suffix) is modelled by a fresh-name
  counter threaded through the state; timestamps are integer milliseconds
  passed in as a `now` parameter.  No modelled claim depends on id contents.
* `Array.prototype.sort` with a comparator `c` is modelled by a stable
  structural sort on the relation `fun a b => c a b ≤ 0`; the claims proved
  below depend only on the result being a permutation of the input.
* `Array.prototype.sort()` without arguments (used on capability lists)
  sorts strings by UTF-16 code units; it is modelled by a pure sort on
  `String` order.  In JS this sort also mutates the stored array in
  place, but only reorders it, which no property below observes.
-/

/-! ## Kernel-computable rational arithmetic

The `Rat` arithmetic of the standard library is `@[irreducible]`, which
blocks `decide`-style evaluation of concrete program states.  The embedding
therefore computes with `mkRat`-based operations; the bridge lemmas
`qadd_eq`, `qsub_eq`, `qmul_eq`, `qdiv_eq` identify them with the ordinary
field operations for abstract reasoning. -/

/-- Addition on `ℚ` through `mkRat` (kernel-computable). -/
def qadd (a b : ℚ) : ℚ :=
  mkRat (a.num * b.den + b.num * a.den) (a.den * b.den)

/-- Subtraction on `ℚ` through `mkRat` (kernel-computable). -/
def qsub (a b : ℚ) : ℚ :=
  mkRat (a.num * b.den - b.num * a.den) (a.den * b.den)

/-- Multiplication on `ℚ` through `mkRat` (kernel-computable). -/
def qmul (a b : ℚ) : ℚ :=
  mkRat (a.num * b.num) (a.den * b.den)

/-- Division on `ℚ` through `mkRat` (kernel-computable); `qdiv a 0 = 0`,
a case no modelled code path reaches with a finite dividend. -/
def qdiv (a b : ℚ) : ℚ :=
  if 0 ≤ b.num then mkRat (a.num * b.den) (a.den * b.num.toNat)
  else mkRat (-(a.num * b.den)) (a.den * b.num.natAbs)

/-- The numerator of a rational, as the rational times its denominator. -/
lemma ratNumCast (a : ℚ) : (a.num : ℚ) = a * (a.den : ℚ) := by
  have hda : ((a.den : ℚ)) ≠ 0 := (Nat.cast_pos.mpr a.den_pos).ne'
  have h := Rat.num_div_den a
  rw [div_eq_iff hda] at h
  exact h

lemma qadd_eq (a b : ℚ) : qadd a b = a + b := by
  have hda : ((a.den : ℚ)) ≠ 0 := (Nat.cast_pos.mpr a.den_pos).ne'
  have hdb : ((b.den : ℚ)) ≠ 0 := (Nat.cast_pos.mpr b.den_pos).ne'
  rw [qadd, Rat.mkRat_eq_div, div_eq_iff (by push_cast; positivity)]
  push_cast
  rw [ratNumCast a, ratNumCast b]
  ring

lemma qsub_eq (a b : ℚ) : qsub a b = a - b := by
  have hda : ((a.den : ℚ)) ≠ 0 := (Nat.cast_pos.mpr a.den_pos).ne'
  have hdb : ((b.den : ℚ)) ≠ 0 := (Nat.cast_pos.mpr b.den_pos).ne'
  rw [qsub, Rat.mkRat_eq_div, div_eq_iff (by push_cast; positivity)]
  push_cast
  rw [ratNumCast a, ratNumCast b]
  ring

lemma qmul_eq (a b : ℚ) : qmul a b = a * b := by
  have hda : ((a.den : ℚ)) ≠ 0 := (Nat.cast_pos.mpr a.den_pos).ne'
  have hdb : ((b.den : ℚ)) ≠ 0 := (Nat.cast_pos.mpr b.den_pos).ne'
  rw [qmul, Rat.mkRat_eq_div, div_eq_iff (by push_cast; positivity)]
  push_cast
  rw [ratNumCast a, ratNumCast b]
  ring

lemma qdiv_eq (a b : ℚ) : qdiv a b = a / b := by
  have hda : ((a.den : ℚ)) ≠ 0 := (Nat.cast_pos.mpr a.den_pos).ne'
  have hdb : ((b.den : ℚ)) ≠ 0 := (Nat.cast_pos.mpr b.den_pos).ne'
  by_cases hb0 : b = 0
  · subst hb0
    show qdiv a 0 = a / 0
    rw [qdiv]
    norm_num [Rat.mkRat_eq_div]
  · have hbnum : b.num ≠ 0 := Rat.num_ne_zero.mpr hb0
    have hbq : ((b.num : ℚ)) ≠ 0 := Int.cast_ne_zero.mpr hbnum
    have hden : (a.den * b.num.natAbs : ℕ) ≠ 0 :=
      Nat.mul_ne_zero a.den_nz (Int.natAbs_ne_zero.mpr hbnum)
    have hdenq : ((a.den * b.num.natAbs : ℕ) : ℚ) ≠ 0 := Nat.cast_ne_zero.mpr hden
    rcases hbnum.lt_or_lt with hb | hb
    · have habs : ((b.num.natAbs : ℕ) : ℚ) = -((b.num : ℚ)) := by
        have h1 : ((b.num.natAbs : ℕ) : ℤ) = -b.num := by omega
        calc ((b.num.natAbs : ℕ) : ℚ) = (((b.num.natAbs : ℕ) : ℤ) : ℚ) :=
              (Int.cast_natCast _).symm
          _ = ((-b.num : ℤ) : ℚ) := by rw [h1]
          _ = -((b.num : ℚ)) := by push_cast; ring
      rw [qdiv, if_neg (by omega), Rat.mkRat_eq_div, div_eq_div_iff hdenq hb0]
      push_cast
      rw [habs, ratNumCast a, ratNumCast b]
      ring
    · have htn : ((b.num.toNat : ℕ) : ℚ) = ((b.num : ℚ)) := by
        exact_mod_cast congrArg (fun z => ((z : ℤ) : ℚ)) (Int.toNat_of_nonneg hb.le)
      have hdenq2 : ((a.den * b.num.toNat : ℕ) : ℚ) ≠ 0 :=
        Nat.cast_ne_zero.mpr (Nat.mul_ne_zero a.den_nz (by omega))
      rw [qdiv, if_pos (by omega), Rat.mkRat_eq_div, div_eq_div_iff hdenq2 hb0]
      push_cast [htn]
      rw [ratNumCast a, ratNumCast b]
      ring

/-! ## JavaScript numbers -/

/-- A JavaScript number as observed by this code base: `undef` models a read
of an absent object field (`undefined`), `nan` the IEEE NaN produced by
arithmetic on `undefined`, and `num q` a finite value (modelled exactly as a
rational). -/
inductive JSNum where
  | undef : JSNum
  | nan : JSNum
  | num : ℚ → JSNum
  deriving DecidableEq, Repr

namespace JSNum

/-- `ToNumber` as applied by JS arithmetic: `undefined` coerces to `NaN`. -/
def toNumber : JSNum → JSNum
  | undef => nan
  | nan => nan
  | num q => num q

/-- JS truthiness of a number-valued field: `undefined`, `NaN` and `0` are
falsy. -/
def truthy : JSNum → Bool
  | undef => false
  | nan => false
  | num q => q ≠ 0

/-- JS `x || 0`. -/
def orZero (x : JSNum) : ℚ :=
  match x with
  | num q => q      -- if q = 0 the right operand 0 is returned: same value
  | _ => 0

/-- JS `x || 1`. -/
def orOne (x : JSNum) : JSNum :=
  if x.truthy then x else num 1

/-- JS addition (NaN-propagating). -/
def add : JSNum → JSNum → JSNum
  | num a, num b => num (qadd a b)
  | _, _ => nan

/-- JS subtraction (NaN-propagating). -/
def sub : JSNum → JSNum → JSNum
  | num a, num b => num (qsub a b)
  | _, _ => nan

/-- JS multiplication (NaN-propagating). -/
def mul : JSNum → JSNum → JSNum
  | num a, num b => num (qmul a b)
  | _, _ => nan

/-- JS division, NaN-propagating.  `x / 0` is `±Infinity` (or `NaN` for
`0 / 0`) in JS; it is collapsed to `nan` here — every division reached by
the modelled code divides by a pattern count that is either `NaN` or a
finite count `≥ 2`. -/
def div : JSNum → JSNum → JSNum
  | num a, num b => if b = 0 then nan else num (qdiv a b)
  | _, _ => nan

/-- JS `x++` (the new value stored back into the field):
`ToNumber(x) + 1`, hence `NaN` when the field was absent. -/
def inc (x : JSNum) : JSNum :=
  match x.toNumber with
  | num q => num (qadd q 1)
  | _ => nan

end JSNum

/-! ## String utilities (JS semantics) -/

/-- `sub` occurs as a contiguous run inside `l` (structural recursion, so
that concrete instances evaluate inside the kernel). -/
def infixCheck (sub : List Char) : List Char → Bool
  | [] => sub.isEmpty
  | c :: rest => sub.isPrefixOf (c :: rest) || infixCheck sub rest

/-- JS `String.prototype.includes`: substring containment. -/
def jsIncludes (s sub : String) : Bool :=
  infixCheck sub.toList s.toList

/-- Segments of a character list delimited by maximal whitespace runs, JS
`str.split(/\s+/)` semantics: a leading (resp. trailing) whitespace run
contributes a leading (resp. trailing) empty segment.  `cur` is the
reversed prefix of the segment currently being read; `skipping` is true
while inside a whitespace run that has already emitted its segment (then
`cur = []`). -/
def jsSplitWsCore (skipping : Bool) (cur : List Char) : List Char → List (List Char)
  | [] => [cur.reverse]
  | c :: rest =>
    if c.isWhitespace then
      if skipping then jsSplitWsCore true [] rest
      else cur.reverse :: jsSplitWsCore true [] rest
    else jsSplitWsCore false (c :: cur) rest

/-- JS `str.split(/\s+/)` on a string. -/
def jsSplitWs (s : String) : List String :=
  (jsSplitWsCore false [] s.toList).map List.asString

/-- JS `str.toLowerCase()` (ASCII-faithful, which covers every string this
code base manipulates); written over the character list so that concrete
instances evaluate inside the kernel. -/
def jsToLower (s : String) : String :=
  (s.toList.map Char.toLower).asString

/-! ## Error classifier (`_classifyError`, learning-system.js lines 409-429)

`_classifyError(error)` begins with `error.toLowerCase()`; when the caller
passed no `error` field this is a property access on `undefined` and throws
a `TypeError`, so the classifier is embedded in `Except`. -/

/-- Structural equality of `Except` results, used to state concrete
evaluations of the classifier. -/
instance exceptDecEq {ε α : Type} [DecidableEq ε] [DecidableEq α] :
    DecidableEq (Except ε α) := fun a b =>
  match a, b with
  | .ok x, .ok y =>
    if h : x = y then .isTrue (by rw [h]) else .isFalse (fun hc => h (Except.ok.inj hc))
  | .error x, .error y =>
    if h : x = y then .isTrue (by rw [h]) else .isFalse (fun hc => h (Except.error.inj hc))
  | .ok _, .error _ => .isFalse (fun hc => Except.noConfusion hc)
  | .error _, .ok _ => .isFalse (fun hc => Except.noConfusion hc)

/-- The rule chain of `_classifyError` from learning-system.js: ordered
keyword rules over the lower-cased message, first match wins. -/
def classifyMessage (e : String) : String :=
  let errorLower := jsToLower e
  if jsIncludes errorLower "permission" || jsIncludes errorLower "access denied" then
    "permission-error"
  else if jsIncludes errorLower "not found" || jsIncludes errorLower "missing" then
    "missing-dependency"
  else if jsIncludes errorLower "timeout" || jsIncludes errorLower "timed out" then
    "timeout"
  else if jsIncludes errorLower "api" && (jsIncludes errorLower "key" || jsIncludes errorLower "auth") then
    "authentication-error"
  else if jsIncludes errorLower "syntax" || jsIncludes errorLower "parse" then
    "syntax-error"
  else
    "unknown-error"

/-- `_classifyError` as called: the `error.toLowerCase()` on its first line
throws when the `error` field is absent. -/
def classifyError (error : Option String) : Except String String :=
  match error with
  | none => .error "TypeError: cannot read toLowerCase of undefined"
  | some e => .ok (classifyMessage e)

/-! ## Similarity (`_calculateSimilarity`, learning-system.js lines 431-445) -/

/-- Token list of one argument of `_calculateSimilarity`: lower-case, then
split on whitespace runs. -/
def simTokens (s : String) : List String :=
  jsSplitWs (jsToLower s)

/-- `_calculateSimilarity` from learning-system.js.  The two arguments can be
absent (`undefined`) at several call sites; `!str1 || !str2` is falsy-based,
so both `undefined` and the empty string yield `0`.  The intersection is
`words1.filter(w => words2.includes(w))` — NOT de-duplicated — while the
union is `[...new Set([...words1, ...words2])]`. -/
def calculateSimilarity (str1 str2 : Option String) : ℚ :=
  match str1, str2 with
  | some s1, some s2 =>
    if s1 = "" || s2 = "" then 0
    else
      let words1 := simTokens s1
      let words2 := simTokens s2
      let intersection := words1.filter (fun w => words2.contains w)
      -- `[...new Set(...)]` keeps first occurrences, `List.dedup` keeps last
      -- ones; only the length (the number of distinct tokens) is consumed.
      let union := (words1 ++ words2).dedup
      if union.length > 0 then
        mkRat (Int.ofNat intersection.length) union.length
      else 0
  | _, _ => 0


/-! ## Sorting (JS `Array.prototype.sort`)

Modelled by a structural insertion sort.  For the argument-less
`capabilities.sort()` (string comparison by code units) any correct sort
computes the same list, so the model is exact.  For comparator-based sorts
the modelled claims depend only on the output being a permutation of the
input (V8 additionally guarantees stability, which no claim below
observes).  In JS, `sort` also mutates the array in place; the only place
this matters here is `_patternsMatch`, where it merely reorders a stored
capability list, which no modelled claim observes. -/

/-- Lexicographic order on character lists (JS string comparison by code
units, written structurally so it evaluates in the kernel). -/
def charListLt : List Char → List Char → Bool
  | [], [] => false
  | [], _ :: _ => true
  | _ :: _, [] => false
  | a :: as, b :: bs => if a < b then true else if b < a then false else charListLt as bs

/-- `a ≤ b` for JS default string sorting. -/
def jsStrLe (a b : String) : Bool :=
  !(charListLt b.toList a.toList)

/-- Insert into a sorted list (helper of `sortBy`). -/
def insertBy {α : Type} (le : α → α → Bool) (a : α) : List α → List α
  | [] => [a]
  | b :: l => if le a b then a :: b :: l else b :: insertBy le a l

/-- Stable insertion sort by a boolean relation. -/
def sortBy {α : Type} (le : α → α → Bool) : List α → List α
  | [] => []
  | a :: l => insertBy le a (sortBy le l)

/-- JS `array.sort()` on an array of strings. -/
def jsSortStrings (l : List String) : List String :=
  sortBy jsStrLe l

/-! ## Learning-system data model (learning-system.js)

JS pattern objects are duck-typed records; they are modelled by one
structure carrying every field any variant uses, with a read of a field the
variant does not carry represented by the `none` / `JSNum.undef` default.
The modelled code reads list- and string-valued fields only in the variant
branch that created them, so those defaults are never observed. -/

/-- A primitive JS value inside a step's `parameters` object (only its
`typeof` is consumed, by the template extractor). -/
inductive JSPrim where
  | str : String → JSPrim
  | numv : ℚ → JSPrim
  | boolv : Bool → JSPrim
  deriving DecidableEq, Repr

/-- JS `typeof` on a parameter value. -/
def typeofPrim : JSPrim → String
  | .str _ => "string"
  | .numv _ => "number"
  | .boolv _ => "boolean"

/-- One entry of a workflow's `steps` array. -/
structure StepInput where
  tool : Option String
  description : Option String
  parameters : Option (List (String × JSPrim))
  code : Option String
  duration : JSNum
  deriving DecidableEq, Repr

/-- A workflow's `context` object (the keys the code reads). -/
structure ContextInput where
  goal : Option String
  industry : Option String
  deriving DecidableEq, Repr

/-- The default `{}` put in place of an absent context. -/
def emptyContext : ContextInput := ⟨none, none⟩

/-- Caller input to `recordSuccess` / `extractFromWorkflow`; every field may
be absent.  `recordSuccess` reads the capability list from a key named
`capabilities`, the template extractor from `capabilitiesUsed`; both keys
are carried. -/
structure WorkflowInput where
  toolsUsed : Option (List String)
  steps : Option (List StepInput)
  duration : JSNum
  outcome : Option String
  capabilities : Option (List String)
  capabilitiesUsed : Option (List String)
  context : Option ContextInput
  deriving DecidableEq, Repr

/-- Caller input to `recordFailure`; every field may be absent. -/
structure FailureInput where
  toolsUsed : Option (List String)
  error : Option String
  step : Option String
  context : Option ContextInput
  suggestion : Option String
  deriving DecidableEq, Repr

/-- A stored record of `successfulWorkflows`. -/
structure WorkflowRecord where
  id : Nat
  timestamp : Int
  toolsUsed : List String
  steps : List StepInput
  duration : JSNum
  outcome : Option String
  capabilitiesUsed : List String
  context : ContextInput
  deriving DecidableEq, Repr

/-- A stored record of `failedAttempts`.  The record literal built by
`recordFailure` has no `occurrenceCount` key, yet the merge scan of
`_learnFromFailure` reads that key, so the (always absent) field is carried
explicitly as `JSNum.undef`. -/
structure FailureRecord where
  id : Nat
  timestamp : Int
  toolsUsed : List String
  error : Option String
  step : Option String
  context : ContextInput
  suggestion : Option String
  occurrenceCount : JSNum
  deriving DecidableEq, Repr

/-- The `type` tag of a stored learned pattern. -/
inductive PatternType where
  | toolSequence
  | capabilityCombination
  | durationEstimate
  | avoidanceRule
  deriving DecidableEq, Repr

/-- A learned pattern (duck-typed JS object; see the section comment). -/
structure Pattern where
  ptype : PatternType
  id : Nat
  createdAt : Int
  sequence : List String
  capabilities : List String
  useCase : Option String
  context : Option String
  successRate : JSNum
  count : JSNum
  estimatedDuration : JSNum
  confidence : JSNum
  errorType : Option String
  avoidCombination : List String
  recommendedAlternative : Option String
  occurrenceCount : JSNum
  deriving DecidableEq, Repr

/-- A pattern object with every field absent; variant constructions below
override exactly the keys the JS object literal carries. -/
def basePattern : Pattern :=
  { ptype := .toolSequence, id := 0, createdAt := 0, sequence := [],
    capabilities := [], useCase := none, context := none,
    successRate := .undef, count := .undef, estimatedDuration := .undef,
    confidence := .undef, errorType := none, avoidCombination := [],
    recommendedAlternative := none, occurrenceCount := .undef }

/-- The in-memory state of a `LearningSystem` instance.  `_generateId`
(wall clock plus random suffix) is modelled by the `nextId` counter. -/
structure LearnState where
  learnedPatterns : List Pattern
  successfulWorkflows : List WorkflowRecord
  failedAttempts : List FailureRecord
  nextId : Nat
  deriving DecidableEq, Repr

/-- A fresh `LearningSystem` with no persisted data. -/
def initialState : LearnState := ⟨[], [], [], 0⟩

/-! ## Pattern miner (`_extractPatternsFromWorkflow`, lines 119-179) -/

/-- `workflow.context.goal || 'Unknown'` (falsy default: absent or empty
goal). -/
def goalOrUnknown (g : Option String) : String :=
  match g with
  | some s => if s = "" then "Unknown" else s
  | none => "Unknown"

/-- `workflow.steps.map(s => s.tool).filter(Boolean)`: the ordered tool
sequence, dropping absent and empty tool names (both falsy). -/
def toolSequenceOf (steps : List StepInput) : List String :=
  steps.filterMap (fun s =>
    match s.tool with
    | some t => if t = "" then none else some t
    | none => none)

/-- The up-to-three pattern candidates derived from one successful workflow
record (lines 120-155), in program order. -/
def extractCandidates (w : WorkflowRecord) : List Pattern :=
  let p1 : List Pattern :=
    if w.steps.length > 1 then
      let toolSequence := toolSequenceOf w.steps
      if toolSequence.length > 1 then
        [{ basePattern with
            ptype := .toolSequence, sequence := toolSequence,
            useCase := some (goalOrUnknown w.context.goal),
            successRate := .num 1, count := .num 1 }]
      else []
    else []
  let p2 : List Pattern :=
    if w.capabilitiesUsed.length > 1 then
      [{ basePattern with
          ptype := .capabilityCombination, capabilities := w.capabilitiesUsed,
          useCase := w.context.goal, successRate := .num 1, count := .num 1 }]
    else []
  let p3 : List Pattern :=
    if w.duration.truthy then
      [{ basePattern with
          ptype := .durationEstimate, context := w.context.goal,
          estimatedDuration := w.duration, confidence := .num 1 }]
    else []
  p1 ++ p2 ++ p3

/-- `_patternsMatch` (lines 391-407): variant-wise identity of the
identifying fields.  `JSON.stringify` equality of string arrays is list
equality; `capabilities.sort()` compares the sorted lists. -/
def patternsMatch (p1 p2 : Pattern) : Bool :=
  if p1.ptype ≠ p2.ptype then false
  else
    match p1.ptype with
    | .toolSequence => p1.sequence = p2.sequence
    | .capabilityCombination =>
        jsSortStrings p1.capabilities = jsSortStrings p2.capabilities
    | .durationEstimate => p1.context = p2.context
    | .avoidanceRule => false   -- the `default` branch of the JS switch

/-- Replace the first element satisfying `p` (the in-place mutation of the
object returned by `Array.prototype.find`). -/
def updateFirst {α : Type} (p : α → Bool) (f : α → α) : List α → List α
  | [] => []
  | a :: l => if p a then f a :: l else a :: updateFirst p f l

/-- The in-place update of a matched pattern (lines 163-169): `count++`,
then the running success-rate average, and for a `duration-estimate`
candidate the running duration average.  A matched `duration-estimate`
pattern has no `count` / `successRate` fields, so those updates compute
with `undefined` and store `NaN`. -/
def applySuccessMerge (cand existing : Pattern) : Pattern :=
  let count2 := existing.count.inc
  let successRate2 :=
    JSNum.div (JSNum.add (JSNum.mul existing.successRate (JSNum.sub count2 (.num 1)))
      (.num 1)) count2
  let estimatedDuration2 :=
    if cand.ptype = .durationEstimate then
      JSNum.div (JSNum.add (JSNum.mul existing.estimatedDuration (JSNum.sub count2 (.num 1)))
        cand.estimatedDuration) count2
    else existing.estimatedDuration
  { existing with
      count := count2, successRate := successRate2,
      estimatedDuration := estimatedDuration2 }

/-- One iteration of the merge loop (lines 158-176): update the first
matching stored pattern, else append the candidate with a fresh id. -/
def mergeOnePattern (now : Int) (st : List Pattern × Nat) (cand : Pattern) :
    List Pattern × Nat :=
  match st.1.find? (fun p => patternsMatch p cand) with
  | some _ =>
      (updateFirst (fun p => patternsMatch p cand) (applySuccessMerge cand) st.1, st.2)
  | none => (st.1 ++ [{ cand with id := st.2, createdAt := now }], st.2 + 1)

/-- `_extractPatternsFromWorkflow`: fold the candidates into the store. -/
def extractPatternsFromWorkflow (now : Int) (w : WorkflowRecord)
    (store : List Pattern) (nid : Nat) : List Pattern × Nat :=
  (extractCandidates w).foldl (mergeOnePattern now) (store, nid)

/-! ## Workflow recorder (`recordSuccess` / `recordFailure`, lines 72-114) -/

/-- The record literal of `recordSuccess` (lines 73-82): absent fields are
falsy-defaulted to empty collections. -/
def successRecordOf (now : Int) (w : WorkflowInput) (s : LearnState) :
    WorkflowRecord :=
  { id := s.nextId, timestamp := now,
    toolsUsed := w.toolsUsed.getD [],
    steps := w.steps.getD [],
    duration := w.duration,
    outcome := w.outcome,
    capabilitiesUsed := w.capabilities.getD [],
    context := w.context.getD emptyContext }

/-- `recordSuccess` (lines 72-91): build the record, append it, mine
patterns, return the fresh id. -/
def recordSuccess (now : Int) (w : WorkflowInput) (s : LearnState) :
    LearnState × Nat :=
  let record := successRecordOf now w s
  let s1 : LearnState :=
    { s with successfulWorkflows := s.successfulWorkflows ++ [record],
             nextId := s.nextId + 1 }
  let merged := extractPatternsFromWorkflow now record s1.learnedPatterns s1.nextId
  ({ s1 with learnedPatterns := merged.1, nextId := merged.2 }, record.id)

/-- `failure.toolsUsed.join(',')` (JS `Array.prototype.join`). -/
def joinComma : List String → String
  | [] => ""
  | [s] => s
  | s :: rest => s ++ "," ++ joinComma rest

/-- The `find` scan of `_learnFromFailure` (lines 199-202) over the stored
failed attempts.  The predicate classifies each scanned record's error, so
a stored record with an absent error makes the whole scan throw. -/
def findFailureMatch (errorType : String) (tools : List String) :
    List FailureRecord → Except String (Option FailureRecord)
  | [] => .ok none
  | f :: rest => do
    let et ← classifyError f.error
    if et = errorType && joinComma f.toolsUsed = joinComma tools then
      .ok (some f)
    else
      findFailureMatch errorType tools rest

/-- `_learnFromFailure` (lines 184-221).  Of the intermediate
`failurePattern` object only `occurrenceCount` is ever consumed; the
avoidance rule is always appended, never merged. -/
def learnFromFailure (now : Int) (record : FailureRecord) (s : LearnState) :
    Except String LearnState := do
  let errorType ← classifyError record.error
  let foundOpt ← findFailureMatch errorType record.toolsUsed s.failedAttempts
  let occCount : JSNum :=
    match foundOpt with
    | some existing => JSNum.add existing.occurrenceCount.orOne (.num 1)
    | none => .num 1
  let avoidancePattern : Pattern :=
    { basePattern with
        ptype := .avoidanceRule, id := s.nextId, createdAt := now,
        errorType := some errorType, avoidCombination := record.toolsUsed,
        recommendedAlternative := record.suggestion,
        occurrenceCount := occCount }
  .ok { s with learnedPatterns := s.learnedPatterns ++ [avoidancePattern],
               nextId := s.nextId + 1 }

/-- The record literal of `recordFailure` (lines 97-105): `toolsUsed` and
`context` are falsy-defaulted, `error` is NOT. -/
def failureRecordOf (now : Int) (f : FailureInput) (s : LearnState) :
    FailureRecord :=
  { id := s.nextId, timestamp := now,
    toolsUsed := f.toolsUsed.getD [],
    error := f.error,
    step := f.step,
    context := f.context.getD emptyContext,
    suggestion := f.suggestion,
    occurrenceCount := .undef }

/-- The state right after the `push` / `saveLearningData()` of
`recordFailure`, before `_learnFromFailure` runs. -/
def failurePushState (now : Int) (f : FailureInput) (s : LearnState) :
    LearnState :=
  { s with failedAttempts := s.failedAttempts ++ [failureRecordOf now f s],
           nextId := s.nextId + 1 }

/-- `recordFailure` (lines 96-114): the record is pushed (and persisted)
before `_learnFromFailure` runs, so when the latter throws the failure
record is already stored and the exception escapes to the caller. -/
def recordFailure (now : Int) (f : FailureInput) (s : LearnState) :
    LearnState × Except String Nat :=
  let record := failureRecordOf now f s
  let s1 := failurePushState now f s
  match learnFromFailure now record s1 with
  | .ok s2 => (s2, .ok record.id)
  | .error e => (s1, .error e)

/-- States reachable from a fresh `LearningSystem` by any sequence of
`recordSuccess` / `recordFailure` calls (including calls on which
`recordFailure` throws after its partial mutation). -/
inductive Reachable : LearnState → Prop where
  | init : Reachable initialState
  | success (now : Int) (w : WorkflowInput) {s : LearnState} :
      Reachable s → Reachable (recordSuccess now w s).1
  | failure (now : Int) (f : FailureInput) {s : LearnState} :
      Reachable s → Reachable (recordFailure now f s).1

/-! ## Suggestion ranker (`getSuggestions`, lines 226-285) -/

/-- The context argument of `getSuggestions` (the keys the code reads). -/
structure SuggestContext where
  goal : Option String
  requiredCapabilities : Option (List String)
  toolsToUse : Option (List String)
  deriving DecidableEq, Repr

/-- JS string truthiness: present and non-empty. -/
def strTruthy : Option String → Bool
  | some s => s ≠ ""
  | none => false

/-- The relevance computed for one stored pattern (the `switch` of lines
233-266; `relevance` stays `0` when the guarding condition is falsy). -/
def relevanceFor (ctx : SuggestContext) (p : Pattern) : ℚ :=
  match p.ptype with
  | .toolSequence =>
      if strTruthy p.useCase && strTruthy ctx.goal then
        calculateSimilarity p.useCase ctx.goal
      else 0
  | .capabilityCombination =>
      match ctx.requiredCapabilities with
      | some req =>
          let overlap := (p.capabilities.filter (fun c => req.contains c)).length
          -- `overlap / capabilities.length` is NaN in JS when the
          -- capability list is empty; NaN fails the `> 0.3` filter exactly
          -- as the 0 used here does.
          if p.capabilities.length = 0 then 0
          else mkRat (Int.ofNat overlap) p.capabilities.length
      | none => 0
  | .durationEstimate =>
      if strTruthy ctx.goal then calculateSimilarity p.context ctx.goal else 0
  | .avoidanceRule =>
      match ctx.toolsToUse with
      | some tools =>
          if p.avoidCombination.all (fun t => tools.contains t) then 1 else 0
      | none => 0

/-- `_getSuggestionReason` (lines 447-460); with the four-variant `type`
model the `default` branch is unreachable. -/
def getSuggestionReason (p : Pattern) : String :=
  match p.ptype with
  | .toolSequence => "Similar successful workflow used this sequence"
  | .capabilityCombination => "These capabilities worked well together"
  | .durationEstimate => "Estimated duration based on similar tasks"
  | .avoidanceRule => "Avoiding known error pattern"

/-- One entry of the list `getSuggestions` returns: the pattern spread
together with its `relevance` and `reason`. -/
structure Suggestion where
  pattern : Pattern
  relevance : ℚ
  reason : String
  deriving DecidableEq, Repr

/-- The filtered suggestion list before sorting (lines 230-275): one entry
per stored pattern whose relevance is strictly above `0.3`. -/
def suggestionsAll (ctx : SuggestContext) (store : List Pattern) : List Suggestion :=
  store.filterMap (fun p =>
    let r := relevanceFor ctx p
    if mkRat 3 10 < r then some ⟨p, r, getSuggestionReason p⟩ else none)

/-- `-q` through `mkRat` (kernel-computable). -/
def qneg (q : ℚ) : ℚ := mkRat (-q.num) q.den

lemma qneg_eq (q : ℚ) : qneg q = -q := by
  have h := qsub_eq 0 q
  simpa [qsub, qneg] using h

/-- JS `Math.abs` on a finite number. -/
def jsAbs (q : ℚ) : ℚ := if q.num < 0 then qneg q else q

lemma jsAbs_eq (q : ℚ) : jsAbs q = |q| := by
  rcases lt_trichotomy q 0 with h | h | h
  · have : q.num < 0 := Rat.num_neg.mpr h
    rw [jsAbs, if_pos this, qneg_eq, abs_of_neg h]
  · subst h
    simp [jsAbs, qneg]
  · have h0 : ¬(q.num < 0) := not_lt.mpr (Rat.num_nonneg.mpr h.le)
    rw [jsAbs, if_neg h0, abs_of_pos h]

/-- The sort comparator of lines 278-282: success rate descending, but
differences of at most `0.1` fall through to relevance descending. -/
def suggestionComparator (a b : Suggestion) : ℚ :=
  let successDiff := qsub b.pattern.successRate.orZero a.pattern.successRate.orZero
  if mkRat 1 10 < jsAbs successDiff then successDiff
  else qsub b.relevance a.relevance

/-- `getSuggestions`: filter, sort by the comparator, return the first 5. -/
def getSuggestions (ctx : SuggestContext) (store : List Pattern) : List Suggestion :=
  let sorted := sortBy (fun a b => suggestionComparator a b ≤ 0) (suggestionsAll ctx store)
  sorted.take 5

/-! ## Template extractor (pattern-extractor.js) -/

/-- Join with an arbitrary separator (JS `Array.prototype.join(sep)`). -/
def joinSep (sep : String) : List String → String
  | [] => ""
  | [s] => s
  | s :: rest => s ++ sep ++ joinSep sep rest

/-- A normalized step of a skill template (`_normalizeSteps`). -/
structure NormStep where
  tool : String
  description : String
  parameters : List (String × JSPrim)
  code : Option String
  duration : JSNum
  deriving DecidableEq, Repr

/-- `_normalizeSteps` (lines 792-800): falsy fields get fixed defaults
(`null` results are conflated with absent fields, a distinction nothing
here observes). -/
def normalizeSteps (steps : List StepInput) : List NormStep :=
  steps.map (fun step =>
    { tool :=
        match step.tool with
        | some t => if t = "" then "unknown" else t
        | none => "unknown"
      description :=
        match step.description with
        | some d => if d = "" then "Execute step" else d
        | none => "Execute step"
      parameters := step.parameters.getD []
      code :=
        match step.code with
        | some c => if c = "" then none else some c
        | none => none
      duration := if step.duration.truthy then step.duration else .undef })

/-- A skill template (`extractFromWorkflow`'s object literal).  `examples`
pushes `workflow.context` un-defaulted, so it is a list of possibly-absent
contexts; `parameters` is the first-seen association
`name ↦ (typeof value, description)`. -/
structure Template where
  id : Nat
  name : String
  description : String
  category : String
  useCases : List String
  steps : List NormStep
  toolsRequired : List String
  capabilitiesRequired : List String
  parameters : List (String × String × String)
  estimatedDuration : JSNum
  successCount : JSNum
  lastUsed : Int
  examples : List (Option ContextInput)
  deriving DecidableEq, Repr

/-- `_generateTemplateName` (lines 724-730): title-cased goal, else
`"Workflow Pattern"`. -/
def generateTemplateName (w : WorkflowInput) : String :=
  match w.context with
  | some ctx =>
      match ctx.goal with
      | some g =>
          if g = "" then "Workflow Pattern"
          else
            match g.toList with
            | [] => ""
            | c :: rest => (c.toUpper :: rest.map Char.toLower).asString
      | none => "Workflow Pattern"
  | none => "Workflow Pattern"

/-- `workflow.context?.goal || fallback`. -/
def goalOrElse (w : WorkflowInput) (fallback : String) : String :=
  match w.context with
  | some ctx =>
      match ctx.goal with
      | some g => if g = "" then fallback else g
      | none => fallback
  | none => fallback

/-- `_generateDescription` (lines 732-738). -/
def generateDescription (w : WorkflowInput) : String :=
  let tools := w.toolsUsed.getD []
  let steps := w.steps.getD []
  "A " ++ toString steps.length ++ "-step workflow using " ++ joinSep ", " tools ++
    " that accomplishes " ++ goalOrElse w "a common task"

/-- `_classifyCategory` (lines 740-764): ordered substring scan over
`toolsUsed`, first rule wins.  (The local `context` binding of the JS
function is dead code.) -/
def classifyCategory (w : WorkflowInput) : String :=
  let tools := w.toolsUsed.getD []
  if tools.any (fun t => jsIncludes t "browser" || jsIncludes t "web") then
    "browser-automation"
  else if tools.any (fun t => jsIncludes t "database" || jsIncludes t "db") then
    "database-operations"
  else if tools.any (fun t => jsIncludes t "file" || jsIncludes t "fs") then
    "file-operations"
  else if tools.any (fun t => jsIncludes t "test") then "testing"
  else if tools.any (fun t => jsIncludes t "api") then "api-integration"
  else if tools.any (fun t => jsIncludes t "image" || jsIncludes t "video") then
    "media-processing"
  else "general-automation"

/-- `_extractUseCases` (lines 766-790): context-derived entries, then fixed
tool associations, de-duplicated keeping first occurrences. -/
def extractUseCases (w : WorkflowInput) : List String :=
  let fromContext :=
    match w.context with
    | some ctx =>
        (match ctx.goal with
          | some g => if g = "" then [] else [g]
          | none => []) ++
        (match ctx.industry with
          | some i => if i = "" then [] else [i ++ " automation"]
          | none => [])
    | none => []
  let tools := w.toolsUsed.getD []
  let fromTools :=
    (if tools.contains "web_search" then ["research", "information gathering"] else []) ++
    (if tools.contains "browser" then ["web automation", "scraping"] else []) ++
    (if tools.contains "message" then ["communication", "notifications"] else [])
  (fromContext ++ fromTools).eraseDups

/-- `_extractTools` (lines 802-810): ordered de-duplicated tool list from
the steps. -/
def extractTools (steps : List StepInput) : List String :=
  steps.foldl (fun tools step =>
    match step.tool with
    | some t => if t ≠ "" && !(tools.contains t) then tools ++ [t] else tools
    | none => tools) []

/-- `_extractParameters` (lines 812-829): first-seen
`name ↦ (typeof value, description)` across the steps; an absent step
description renders as the string `"undefined"` in the template literal. -/
def extractParameters (w : WorkflowInput) : List (String × String × String) :=
  (w.steps.getD []).foldl (fun params step =>
    match step.parameters with
    | some ps =>
        ps.foldl (fun acc kv =>
          if acc.any (fun e => e.1 = kv.1) then acc
          else acc ++ [(kv.1, typeofPrim kv.2,
            "Parameter from step: " ++ step.description.getD "undefined")]) params
    | none => params) []

/-- The match predicate of `_findSimilarTemplate` (lines 831-837): equal
category, and `toolsRequired` sets equal via equal length plus inclusion. -/
def templateMatches (cand existing : Template) : Bool :=
  existing.category = cand.category &&
  existing.toolsRequired.length = cand.toolsRequired.length &&
  existing.toolsRequired.all (fun tool => cand.toolsRequired.contains tool)

/-- The in-place mutation of a matched template (lines 401-411):
`successCount++`, example appended, `lastUsed` refreshed — and the
`if (!template.estimatedDuration)` branch, which overwrites the stored
estimate with the candidate's (falsy) duration exactly when the candidate
carries none. -/
def mergeTemplate (now : Int) (cand : Template) (ctx : Option ContextInput)
    (existing : Template) : Template :=
  { existing with
      successCount := existing.successCount.inc,
      examples := existing.examples ++ [ctx],
      lastUsed := now,
      estimatedDuration :=
        if cand.estimatedDuration.truthy then existing.estimatedDuration
        else cand.estimatedDuration }

/-- `extractFromWorkflow` (lines 377-420): `none` for fewer than 2 steps;
otherwise build a candidate template and merge it into the store, returning
the `{merged, template}` result together with the updated store and id
counter. -/
def extractFromWorkflow (now : Int) (w : WorkflowInput)
    (store : List Template) (nid : Nat) :
    Option (Bool × Template) × List Template × Nat :=
  match w.steps with
  | none => (none, store, nid)
  | some steps =>
    if steps.length < 2 then (none, store, nid)
    else
      let template : Template :=
        { id := nid,
          name := generateTemplateName w,
          description := generateDescription w,
          category := classifyCategory w,
          useCases := extractUseCases w,
          steps := normalizeSteps steps,
          toolsRequired := extractTools steps,
          capabilitiesRequired := w.capabilitiesUsed.getD [],
          parameters := extractParameters w,
          estimatedDuration := w.duration,
          successCount := .num 1,
          lastUsed := now,
          examples := [w.context] }
      match store.find? (templateMatches template) with
      | some existing =>
          let merged := mergeTemplate now template w.context existing
          (some (true, merged),
            updateFirst (templateMatches template) (fun _ => merged) store, nid)
      | none => (some (false, template), store ++ [template], nid + 1)

/-! ## Trending scorer (community-share module, quoted in
examples/README.md; `getTrendingPatterns` at lines 414-432) -/

/-- A community-shared pattern, reduced to the keys `getTrendingPatterns`
reads (`id`, `successRate`, `createdAt`); the remaining payload keys are
spread through unchanged and affect nothing the claims observe. -/
structure SharedPattern where
  id : String
  name : String
  successRate : ℚ
  createdAt : Int
  deriving DecidableEq, Repr

/-- One value of the `votes.json` mapping. -/
structure Vote where
  up : ℤ
  down : ℤ
  deriving DecidableEq, Repr

/-- `this.votes[key]` on the vote mapping. -/
def lookupVotes (votes : List (String × Vote)) (key : String) : Option Vote :=
  (votes.find? (fun kv => kv.1 = key)).map (fun kv => kv.2)

/-- `(votes[key]?.up || 0) - (votes[key]?.down || 0)` for a pattern id. -/
def netVotes (votes : List (String × Vote)) (id : String) : ℤ :=
  match lookupVotes votes ("pattern:" ++ id) with
  | some v => v.up - v.down
  | none => 0

/-- `7 * 24 * 60 * 60 * 1000` milliseconds. -/
def weekMillis : ℤ := 604800000

/-- `Math.floor(age / (7 * 24 * 60 * 60 * 1000))`. -/
def agePenalty (age : ℤ) : ℤ := ⌊((age : ℚ)) / ((weekMillis : ℚ))⌋

/-- A shared pattern decorated with `score` and `votes`. -/
structure ScoredPattern where
  pattern : SharedPattern
  score : ℚ
  votes : ℤ
  deriving DecidableEq, Repr

/-- The per-pattern body of `getTrendingPatterns`' `map` (lines 415-428). -/
def scorePattern (now : Int) (votes : List (String × Vote)) (p : SharedPattern) :
    ScoredPattern :=
  let v := netVotes votes p.id
  { pattern := p,
    votes := v,
    score := p.successRate * 100 + (v : ℚ) - ((agePenalty (now - p.createdAt) : ℤ) : ℚ) }

/-- `getTrendingPatterns(limit)`: score, sort descending, take `limit`. -/
def getTrendingPatterns (now : Int) (votes : List (String × Vote))
    (sharedPatterns : List SharedPattern) (limit : Nat) : List ScoredPattern :=
  let scored := sharedPatterns.map (scorePattern now votes)
  (sortBy (fun a b => decide (b.score - a.score ≤ 0)) scored).take limit

/-! ## Shared lemmas -/

lemma insertBy_perm {α : Type} (le : α → α → Bool) (a : α) (l : List α) :
    (insertBy le a l).Perm (a :: l) := by
  induction l with
  | nil => simp [insertBy]
  | cons b l ih =>
    rw [insertBy]
    by_cases h : le a b
    · rw [if_pos h]
    · rw [if_neg h]
      exact (ih.cons b).trans (List.Perm.swap a b l)

lemma sortBy_perm {α : Type} (le : α → α → Bool) (l : List α) :
    (sortBy le l).Perm l := by
  induction l with
  | nil => simp [sortBy]
  | cons a l ih => exact (insertBy_perm le a (sortBy le l)).trans (ih.cons a)

lemma mem_sortBy {α : Type} {le : α → α → Bool} {x : α} {l : List α} :
    x ∈ sortBy le l ↔ x ∈ l :=
  (sortBy_perm le l).mem_iff

lemma updateFirst_length {α : Type} (p : α → Bool) (f : α → α) (l : List α) :
    (updateFirst p f l).length = l.length := by
  induction l with
  | nil => rfl
  | cons a l ih =>
    rw [updateFirst]
    by_cases h : p a
    · rw [if_pos h]; rfl
    · rw [if_neg h]; simpa using ih

/-! ## C2: error-classifier rule order -/

/-- C2 (counterexample): the claim "for every message whose lower-casing
contains `"not found"` or `"missing"`, classify returns missing-dependency"
fails as stated: rule 1 (permission) is evaluated first, so a message
containing both `"permission"` and `"not found"` classifies as
`permission-error`. -/
theorem classify_notfound_counterexample :
    jsIncludes (jsToLower "Permission denied: config not found") "not found" = true ∧
    classifyError (some "Permission denied: config not found") ≠
      .ok "missing-dependency" ∧
    classifyError (some "Permission denied: config not found") =
      .ok "permission-error" := by
  decide

/-- C2 (amended): classify evaluates its keyword rules in the fixed order
permission, missing-dependency, timeout, authentication, syntax, first
match wins: every message that matches no rule-1 keyword and whose
lower-casing contains `"not found"` or `"missing"` classifies as
`missing-dependency`, even when it also contains `"api"` with `"key"` or
`"auth"`; in particular `classify("API key not found")` is
`missing-dependency`, not `authentication-error`. -/
theorem classify_missing_dependency_precedence :
    (∀ m : String,
      jsIncludes (jsToLower m) "permission" = false →
      jsIncludes (jsToLower m) "access denied" = false →
      (jsIncludes (jsToLower m) "not found" || jsIncludes (jsToLower m) "missing") = true →
      classifyError (some m) = .ok "missing-dependency") ∧
    classifyError (some "API key not found") = .ok "missing-dependency" ∧
    jsIncludes (jsToLower "API key not found") "api" = true ∧
    jsIncludes (jsToLower "API key not found") "key" = true := by
  refine ⟨fun m h1 h2 h3 => ?_, by decide, by decide, by decide⟩
  show Except.ok (classifyMessage m) = _
  rw [classifyMessage]
  simp only [h1, h2, h3, Bool.or_self, Bool.false_or]
  norm_num

/-- C2 witness: the amended universal discharged at `"API key not found"`. -/
theorem classify_missing_dependency_precedence_witness :
    jsIncludes (jsToLower "API key not found") "permission" = false ∧
    jsIncludes (jsToLower "API key not found") "access denied" = false ∧
    (jsIncludes (jsToLower "API key not found") "not found" ||
      jsIncludes (jsToLower "API key not found") "missing") = true ∧
    classifyError (some "API key not found") = .ok "missing-dependency" :=
  ⟨by decide, by decide, by decide,
    classify_missing_dependency_precedence.1 "API key not found"
      (by decide) (by decide) (by decide)⟩

/-! ## C3: word-overlap similarity -/

lemma jsSplitWsCore_ne_nil (l : List Char) : ∀ (sk : Bool) (cur : List Char),
    jsSplitWsCore sk cur l ≠ [] := by
  induction l with
  | nil => intro sk cur; simp [jsSplitWsCore]
  | cons c rest ih =>
    intro sk cur
    rw [jsSplitWsCore]
    by_cases h : c.isWhitespace
    · rw [if_pos h]
      by_cases hsk : sk
      · rw [if_pos hsk]; exact ih _ _
      · rw [if_neg hsk]; simp
    · rw [if_neg h]; exact ih _ _

lemma simTokens_ne_nil (s : String) : simTokens s ≠ [] := by
  rw [simTokens, jsSplitWs, Ne, List.map_eq_nil_iff]
  exact jsSplitWsCore_ne_nil _ _ _

lemma filter_contains_length {l1 l2 : List String} (h1 : l1.Nodup) :
    (l1.filter (fun w => l2.contains w)).length =
      (l1.toFinset ∩ l2.toFinset).card := by
  have hnd : (l1.filter (fun w => l2.contains w)).Nodup := h1.filter _
  rw [← List.toFinset_card_of_nodup hnd]
  congr 1
  ext x
  simp [List.mem_filter, List.contains, List.elem_iff]

lemma dedup_append_length (l1 l2 : List String) :
    ((l1 ++ l2).dedup).length = (l1.toFinset ∪ l2.toFinset).card := by
  rw [← List.toFinset_append, List.card_toFinset]

/-- The guarded `mkRat` shape of a similarity call on non-empty strings. -/
lemma calculateSimilarity_eq_mkRat {a b : String} (ha : a ≠ "") (hb : b ≠ "") :
    calculateSimilarity (some a) (some b) =
      mkRat (Int.ofNat ((simTokens a).filter (fun w => (simTokens b).contains w)).length)
        ((simTokens a ++ simTokens b).dedup.length) := by
  have hu : 0 < ((simTokens a ++ simTokens b).dedup).length := by
    rw [List.length_pos, Ne, List.dedup_eq_nil]
    simp [simTokens_ne_nil a]
  rw [calculateSimilarity]
  simp only [ha, hb, decide_False, Bool.or_self, if_false, hu, if_true, if_pos hu]
  norm_num

/-- C3 (counterexample): with duplicated tokens the filter-based
intersection is not de-duplicated, so `similarity("a a", "a") = 2`,
violating the `[0,1]` range, symmetry (`similarity("a", "a a") = 1`) and
`similarity(x, x) = 1` (`similarity("a a", "a a") = 2`). -/
theorem similarity_counterexample :
    calculateSimilarity (some "a a") (some "a") = 2 ∧
    ¬(calculateSimilarity (some "a a") (some "a") ≤ 1) ∧
    calculateSimilarity (some "a") (some "a a") = 1 ∧
    calculateSimilarity (some "a a") (some "a a") = 2 := by
  refine ⟨by decide, ?_, by decide, by decide⟩
  intro h
  rw [show calculateSimilarity (some "a a") (some "a") = 2 from by decide] at h
  norm_num at h

/-- C3 (amended): similarity returns 0 when either input is absent or
empty; on inputs whose lower-cased whitespace-split token lists are
duplicate-free it equals the Jaccard ratio `|∩| / |∪|` of the token sets,
lies in `[0,1]`, is symmetric, and equals 1 on equal non-empty inputs.
(With duplicated tokens the filter-based intersection over-counts, see the
counterexample.) -/
theorem similarity_jaccard :
    (∀ x : Option String,
      calculateSimilarity none x = 0 ∧ calculateSimilarity x none = 0 ∧
      calculateSimilarity (some "") x = 0 ∧ calculateSimilarity x (some "") = 0) ∧
    (∀ a b : String, a ≠ "" → b ≠ "" →
      (simTokens a).Nodup → (simTokens b).Nodup →
      calculateSimilarity (some a) (some b) =
        ((((simTokens a).toFinset ∩ (simTokens b).toFinset).card : ℚ) /
          ((((simTokens a).toFinset ∪ (simTokens b).toFinset).card : ℚ))) ∧
      0 ≤ calculateSimilarity (some a) (some b) ∧
      calculateSimilarity (some a) (some b) ≤ 1 ∧
      calculateSimilarity (some a) (some b) = calculateSimilarity (some b) (some a)) ∧
    (∀ a : String, a ≠ "" → (simTokens a).Nodup →
      calculateSimilarity (some a) (some a) = 1) := by
  have hmain : ∀ a b : String, a ≠ "" → b ≠ "" → (simTokens a).Nodup →
      calculateSimilarity (some a) (some b) =
        ((((simTokens a).toFinset ∩ (simTokens b).toFinset).card : ℚ) /
          ((((simTokens a).toFinset ∪ (simTokens b).toFinset).card : ℚ))) := by
    intro a b ha hb hna
    rw [calculateSimilarity_eq_mkRat ha hb, Rat.mkRat_eq_div,
      filter_contains_length hna, dedup_append_length,
      Int.ofNat_eq_natCast, Int.cast_natCast]
  have hcardpos : ∀ a b : String,
      0 < (((simTokens a).toFinset ∪ (simTokens b).toFinset).card) := by
    intro a b
    have : (simTokens a).toFinset.Nonempty := by
      rw [List.toFinset_nonempty_iff]
      exact simTokens_ne_nil a
    exact Finset.card_pos.mpr (this.mono Finset.subset_union_left)
  refine ⟨?_, fun a b ha hb hna hnb => ?_, fun a ha hna => ?_⟩
  · intro x
    refine ⟨?_, ?_, ?_, ?_⟩
    · cases x <;> rfl
    · cases x <;> rfl
    · cases x with
      | none => rfl
      | some s =>
        simp only [calculateSimilarity]
        norm_num
    · cases x with
      | none => rfl
      | some s =>
        simp only [calculateSimilarity]
        norm_num
  · have h1 := hmain a b ha hb hna
    have h2 := hmain b a hb ha hnb
    have hpos : (0:ℚ) < ((((simTokens a).toFinset ∪ (simTokens b).toFinset).card : ℚ)) := by
      exact_mod_cast hcardpos a b
    refine ⟨h1, ?_, ?_, ?_⟩
    · rw [h1]; positivity
    · rw [h1, div_le_one hpos]
      exact_mod_cast Finset.card_le_card (Finset.inter_subset_union)
    · rw [h1, h2, Finset.inter_comm, Finset.union_comm]
  · have h1 := hmain a a ha ha hna
    have hpos : (0:ℚ) < (((simTokens a).toFinset.card : ℚ)) := by
      have h2 := hcardpos a a
      rw [Finset.union_self] at h2
      exact_mod_cast h2
    rw [h1, Finset.inter_self, Finset.union_self, div_self hpos.ne']

/-- C3 witness: the amended similarity facts discharged on the duplicate-free
inputs `"scrape site"` and `"scrape data"`. -/
theorem similarity_jaccard_witness :
    (simTokens "scrape site").Nodup ∧ (simTokens "scrape data").Nodup ∧
    (0 ≤ calculateSimilarity (some "scrape site") (some "scrape data") ∧
      calculateSimilarity (some "scrape site") (some "scrape data") ≤ 1 ∧
      calculateSimilarity (some "scrape site") (some "scrape data") =
        calculateSimilarity (some "scrape data") (some "scrape site")) ∧
    calculateSimilarity (some "scrape site") (some "scrape site") = 1 :=
  ⟨by decide, by decide,
    ⟨(similarity_jaccard.2.1 "scrape site" "scrape data"
        (by decide) (by decide) (by decide) (by decide)).2.1,
      (similarity_jaccard.2.1 "scrape site" "scrape data"
        (by decide) (by decide) (by decide) (by decide)).2.2.1,
      (similarity_jaccard.2.1 "scrape site" "scrape data"
        (by decide) (by decide) (by decide) (by decide)).2.2.2⟩,
    similarity_jaccard.2.2 "scrape site" (by decide) (by decide)⟩

/-! ## C9: trending score -/

lemma agePenalty_add_week (age : ℤ) :
    agePenalty (age + weekMillis) = agePenalty age + 1 := by
  rw [agePenalty, agePenalty]
  have hdiv : ((age + weekMillis : ℤ) : ℚ) / ((weekMillis : ℤ) : ℚ)
      = ((age : ℤ) : ℚ) / ((weekMillis : ℤ) : ℚ) + 1 := by
    have hw : ((weekMillis : ℤ) : ℚ) ≠ 0 := by norm_num [weekMillis]
    field_simp
  rw [hdiv, show (1:ℚ) = ((1:ℤ) : ℚ) by norm_num, Int.floor_add_int]

/-- C9: every entry returned by `getTrendingPatterns` carries the score
`successRate × 100 + (up − down) − ⌊ageMillis / weekMillis⌋`; the weekly age
penalty is a non-negative integer whenever `createdAt` is not in the
future; and with votes and success rate unchanged, the score computed
exactly 7 days later is exactly 1 lower. -/
theorem trending_score_formula :
    (∀ (now : Int) (votes : List (String × Vote)) (pats : List SharedPattern)
        (limit : Nat) (entry : ScoredPattern),
      entry ∈ getTrendingPatterns now votes pats limit →
      entry.score = entry.pattern.successRate * 100
        + ((netVotes votes entry.pattern.id : ℤ) : ℚ)
        - ((agePenalty (now - entry.pattern.createdAt) : ℤ) : ℚ)) ∧
    (∀ (votes : List (String × Vote)) (id : String) (v : Vote),
      lookupVotes votes ("pattern:" ++ id) = some v →
      netVotes votes id = v.up - v.down) ∧
    (∀ (now createdAt : Int), createdAt ≤ now →
      0 ≤ agePenalty (now - createdAt)) ∧
    (∀ (now : Int) (votes : List (String × Vote)) (p : SharedPattern),
      (scorePattern (now + weekMillis) votes p).score
        = (scorePattern now votes p).score - 1) := by
  refine ⟨?_, ?_, ?_, ?_⟩
  · intro now votes pats limit entry hmem
    have h1 : entry ∈ sortBy (fun a b => decide (b.score - a.score ≤ 0))
        (pats.map (scorePattern now votes)) := List.take_subset _ _ hmem
    have h2 : entry ∈ pats.map (scorePattern now votes) := mem_sortBy.mp h1
    obtain ⟨p, _, hp⟩ := List.mem_map.mp h2
    subst hp
    rfl
  · intro votes id v hv
    rw [netVotes, hv]
  · intro now createdAt h
    rw [agePenalty]
    refine Int.floor_nonneg.mpr (div_nonneg ?_ ?_)
    · exact_mod_cast Int.sub_nonneg.mpr h
    · norm_num [weekMillis]
  · intro now votes p
    show p.successRate * 100 + _ - ((agePenalty (now + weekMillis - p.createdAt) : ℤ) : ℚ)
        = p.successRate * 100 + _ - ((agePenalty (now - p.createdAt) : ℤ) : ℚ) - 1
    rw [show now + weekMillis - p.createdAt = (now - p.createdAt) + weekMillis by ring,
      agePenalty_add_week]
    push_cast
    ring

/-- C9 witness: the three quantified parts discharged on a concrete shared
pattern, vote table and clock. -/
theorem trending_score_formula_witness :
    (scorePattern 0 [] ⟨"p1", "T", 1, 0⟩ ∈
      getTrendingPatterns 0 [] [⟨"p1", "T", 1, 0⟩] 10) ∧
    ((scorePattern 0 [] ⟨"p1", "T", 1, 0⟩).score
      = (⟨"p1", "T", 1, 0⟩ : SharedPattern).successRate * 100
        + ((netVotes [] "p1" : ℤ) : ℚ) - ((agePenalty (0 - 0) : ℤ) : ℚ)) ∧
    ((0:ℤ) ≤ agePenalty (0 - 0)) ∧
    ((scorePattern (0 + weekMillis) [] ⟨"p1", "T", 1, 0⟩).score
      = (scorePattern 0 [] ⟨"p1", "T", 1, 0⟩).score - 1) := by
  have hmem : scorePattern 0 [] ⟨"p1", "T", 1, 0⟩ ∈
      getTrendingPatterns 0 [] [⟨"p1", "T", 1, 0⟩] 10 := by
    simp [getTrendingPatterns, sortBy, insertBy]
  exact ⟨hmem,
    trending_score_formula.1 0 [] [⟨"p1", "T", 1, 0⟩] 10 _ hmem,
    trending_score_formula.2.2.1 0 0 le_rfl,
    trending_score_formula.2.2.2 0 [] ⟨"p1", "T", 1, 0⟩⟩

/-! ## C6: suggestion count and relevance threshold -/

lemma mkRat_three_tenths : (mkRat 3 10 : ℚ) = 3/10 := by
  norm_num [Rat.mkRat_eq_div]

/-- C6: for every context and every pattern store, `getSuggestions` returns
at most 5 entries, and every returned entry's relevance is strictly greater
than `0.3`. -/
theorem getSuggestions_bounded :
    ∀ (ctx : SuggestContext) (store : List Pattern),
      (getSuggestions ctx store).length ≤ 5 ∧
      ∀ sug ∈ getSuggestions ctx store, (3/10 : ℚ) < sug.relevance := by
  intro ctx store
  refine ⟨List.length_take_le 5 _, fun sug hmem => ?_⟩
  have h1 : sug ∈ sortBy (fun a b => suggestionComparator a b ≤ 0)
      (suggestionsAll ctx store) := List.take_subset _ _ hmem
  have h2 : sug ∈ suggestionsAll ctx store := mem_sortBy.mp h1
  rw [suggestionsAll, List.mem_filterMap] at h2
  obtain ⟨p, _, hp⟩ := h2
  by_cases hc : mkRat 3 10 < relevanceFor ctx p
  · rw [if_pos hc] at hp
    have : sug.relevance = relevanceFor ctx p := by
      rw [← Option.some.inj hp]
    rw [this, ← mkRat_three_tenths]
    exact hc
  · rw [if_neg hc] at hp
    exact absurd hp (by simp)

/-- C6 witness: a store holding one avoidance rule and a context naming an
empty tool list yield one suggestion, which obeys both bounds. -/
theorem getSuggestions_bounded_witness :
    (getSuggestions ⟨none, none, some []⟩
      [{ basePattern with ptype := .avoidanceRule }]).length ≤ 5 ∧
    (3/10 : ℚ) <
      (Suggestion.mk { basePattern with ptype := .avoidanceRule } 1
        "Avoiding known error pattern").relevance :=
  ⟨(getSuggestions_bounded ⟨none, none, some []⟩
      [{ basePattern with ptype := .avoidanceRule }]).1,
    (getSuggestions_bounded ⟨none, none, some []⟩
      [{ basePattern with ptype := .avoidanceRule }]).2 _ (by decide)⟩


/-! ## Failure path: helper lemmas -/

lemma exceptBindOk {ε α β : Type} (a : α) (g : α → Except ε β) :
    (Except.ok a >>= g) = g a := rfl

lemma findFailureMatch_ok (errorType : String) (tools : List String) :
    ∀ (l : List FailureRecord), (∀ r ∈ l, r.error.isSome) →
      ∃ res, findFailureMatch errorType tools l = .ok res := by
  intro l
  induction l with
  | nil => exact fun _ => ⟨none, rfl⟩
  | cons f rest ih =>
    intro h
    obtain ⟨e, he⟩ := Option.isSome_iff_exists.mp (h f (by simp))
    obtain ⟨res, hres⟩ := ih (fun r hr => h r (by simp [hr]))
    by_cases hc : (decide (classifyMessage e = errorType) &&
        decide (joinComma f.toolsUsed = joinComma tools)) = true
    · refine ⟨some f, ?_⟩
      rw [findFailureMatch, he]
      show (if (decide (classifyMessage e = errorType) &&
          decide (joinComma f.toolsUsed = joinComma tools)) = true
        then Except.ok (some f) else findFailureMatch errorType tools rest) = _
      rw [if_pos hc]
    · refine ⟨res, ?_⟩
      rw [findFailureMatch, he]
      show (if (decide (classifyMessage e = errorType) &&
          decide (joinComma f.toolsUsed = joinComma tools)) = true
        then Except.ok (some f) else findFailureMatch errorType tools rest) = _
      rw [if_neg hc]
      exact hres

lemma learnFromFailure_ok (now : Int) (record : FailureRecord) (s : LearnState)
    (e : String) (he : record.error = some e)
    (hall : ∀ r ∈ s.failedAttempts, r.error.isSome) :
    ∃ occ : JSNum, learnFromFailure now record s = .ok
      { s with
          learnedPatterns := s.learnedPatterns ++
            [{ basePattern with
                ptype := .avoidanceRule, id := s.nextId, createdAt := now,
                errorType := some (classifyMessage e),
                avoidCombination := record.toolsUsed,
                recommendedAlternative := record.suggestion,
                occurrenceCount := occ }],
          nextId := s.nextId + 1 } := by
  obtain ⟨res, hres⟩ :=
    findFailureMatch_ok (classifyMessage e) record.toolsUsed s.failedAttempts hall
  have hce : classifyError record.error = .ok (classifyMessage e) := by rw [he]; rfl
  cases res with
  | some existing =>
    refine ⟨JSNum.add existing.occurrenceCount.orOne (.num 1), ?_⟩
    rw [learnFromFailure, hce, exceptBindOk, hres, exceptBindOk]
  | none =>
    refine ⟨.num 1, ?_⟩
    rw [learnFromFailure, hce, exceptBindOk, hres, exceptBindOk]

lemma recordFailure_ok (now : Int) (f : FailureInput) (s : LearnState)
    (e : String) (he : f.error = some e)
    (hall : ∀ r ∈ s.failedAttempts, r.error.isSome) :
    ∃ pat : Pattern,
      pat.ptype = .avoidanceRule ∧
      pat.avoidCombination = f.toolsUsed.getD [] ∧
      (recordFailure now f s).1.learnedPatterns = s.learnedPatterns ++ [pat] ∧
      (recordFailure now f s).2 = .ok s.nextId := by
  have he1 : (failureRecordOf now f s).error = some e := he
  have hall1 : ∀ r ∈ (failurePushState now f s).failedAttempts, r.error.isSome := by
    intro r hr
    rw [failurePushState] at hr
    rcases List.mem_append.mp hr with h | h
    · exact hall r h
    · rw [List.mem_singleton.mp h, he1]
      rfl
  obtain ⟨occ, hok⟩ :=
    learnFromFailure_ok now (failureRecordOf now f s) (failurePushState now f s) e he1 hall1
  refine ⟨{ basePattern with
      ptype := .avoidanceRule, id := (failurePushState now f s).nextId,
      createdAt := now, errorType := some (classifyMessage e),
      avoidCombination := (failureRecordOf now f s).toolsUsed,
      recommendedAlternative := (failureRecordOf now f s).suggestion,
      occurrenceCount := occ }, rfl, rfl, ?_, ?_⟩
  · show (match learnFromFailure now (failureRecordOf now f s) (failurePushState now f s) with
      | .ok s2 => (s2, Except.ok (failureRecordOf now f s).id)
      | .error err => (failurePushState now f s, Except.error err)).1.learnedPatterns = _
    rw [hok]
    rfl
  · show (match learnFromFailure now (failureRecordOf now f s) (failurePushState now f s) with
      | .ok s2 => (s2, Except.ok (failureRecordOf now f s).id)
      | .error err => (failurePushState now f s, Except.error err)).2 = _
    rw [hok]
    rfl

/-! ## C10: empty avoidance combination is always relevant -/

/-- C10: an `avoidance-rule` pattern with an empty `avoidCombination` —
which `recordFailure` produces whenever the failure's `toolsUsed` is absent
or empty — is assigned relevance `1.0` by `getSuggestions` for every
context that supplies any `toolsToUse` list (the `every` check is vacuously
true), so it always passes the `> 0.3` threshold filter. -/
theorem empty_avoidance_always_relevant :
    (∀ (ctx : SuggestContext) (store : List Pattern) (p : Pattern)
        (tools : List String),
      p.ptype = .avoidanceRule → p.avoidCombination = [] →
      ctx.toolsToUse = some tools →
      relevanceFor ctx p = 1 ∧
      (p ∈ store →
        (⟨p, 1, "Avoiding known error pattern"⟩ : Suggestion) ∈
          suggestionsAll ctx store)) ∧
    (∀ (now : Int) (f : FailureInput) (s : LearnState) (e : String),
      f.error = some e →
      f.toolsUsed = none ∨ f.toolsUsed = some [] →
      (∀ r ∈ s.failedAttempts, r.error.isSome) →
      ∃ pat : Pattern, pat.ptype = .avoidanceRule ∧ pat.avoidCombination = [] ∧
        (recordFailure now f s).1.learnedPatterns
          = s.learnedPatterns ++ [pat]) := by
  constructor
  · intro ctx store p tools hp hav hctx
    have hrel : relevanceFor ctx p = 1 := by
      simp [relevanceFor, hp, hctx, hav]
    refine ⟨hrel, fun hps => List.mem_filterMap.mpr ⟨p, hps, ?_⟩⟩
    show (if mkRat 3 10 < relevanceFor ctx p
        then some (Suggestion.mk p (relevanceFor ctx p) (getSuggestionReason p))
        else none) = some (Suggestion.mk p 1 "Avoiding known error pattern")
    have hreason : getSuggestionReason p = "Avoiding known error pattern" := by
      simp [getSuggestionReason, hp]
    rw [hrel, if_pos (by rw [mkRat_three_tenths]; norm_num), hreason]
  · intro now f s e he htools hall
    obtain ⟨pat, h1, h2, h3, _⟩ := recordFailure_ok now f s e he hall
    refine ⟨pat, h1, ?_, h3⟩
    rw [h2]
    rcases htools with h | h <;> rw [h] <;> rfl

/-- C10 witness: both parts discharged on a one-pattern store with
`toolsToUse = ["x"]`, and on a failure with no `toolsUsed` recorded from a
fresh state. -/
theorem empty_avoidance_always_relevant_witness :
    (relevanceFor (SuggestContext.mk none none (some ["x"]))
        { basePattern with ptype := .avoidanceRule } = 1 ∧
      (⟨{ basePattern with ptype := .avoidanceRule }, 1,
          "Avoiding known error pattern"⟩ : Suggestion) ∈
        suggestionsAll (SuggestContext.mk none none (some ["x"]))
          [{ basePattern with ptype := .avoidanceRule }]) ∧
    (∃ pat : Pattern, pat.ptype = .avoidanceRule ∧ pat.avoidCombination = [] ∧
      (recordFailure 0 (FailureInput.mk none (some "boom") none none none)
          initialState).1.learnedPatterns
        = initialState.learnedPatterns ++ [pat]) :=
  ⟨⟨(empty_avoidance_always_relevant.1 (SuggestContext.mk none none (some ["x"]))
      [{ basePattern with ptype := .avoidanceRule }]
      { basePattern with ptype := .avoidanceRule } ["x"] rfl rfl rfl).1,
    (empty_avoidance_always_relevant.1 (SuggestContext.mk none none (some ["x"]))
      [{ basePattern with ptype := .avoidanceRule }]
      { basePattern with ptype := .avoidanceRule } ["x"] rfl rfl rfl).2
      (by decide)⟩,
    empty_avoidance_always_relevant.2 0 (FailureInput.mk none (some "boom") none none none)
      initialState "boom" rfl (Or.inl rfl) (by simp [initialState])⟩

/-! ## C4: malformed caller input -/

/-- C4 (counterexample): `recordFailure` on an input with no `error` field
throws — `_classifyError` calls `toLowerCase` on `undefined` — so
malformed input is not universally tolerated. -/
theorem recordFailure_throws_counterexample :
    (recordFailure 0 (FailureInput.mk none none none none none) initialState).2
      = .error "TypeError: cannot read toLowerCase of undefined" := by
  decide

/-- C4 (amended): `recordSuccess` never raises for any input object —
absent fields default to empty collections and a fresh id is returned; and
`recordFailure` defaults `toolsUsed` and `context` but not `error`: with a
present string error (and no previously stored failure carrying an absent
error) it never raises and returns a fresh id, while with an absent error
`_classifyError` throws a TypeError after the failure record has already
been stored. -/
theorem record_input_defaulting :
    (∀ (now : Int) (w : WorkflowInput) (s : LearnState),
      (recordSuccess now w s).1.successfulWorkflows
        = s.successfulWorkflows ++ [successRecordOf now w s] ∧
      (successRecordOf now w s).toolsUsed = w.toolsUsed.getD [] ∧
      (successRecordOf now w s).steps = w.steps.getD [] ∧
      (successRecordOf now w s).capabilitiesUsed = w.capabilities.getD [] ∧
      (successRecordOf now w s).context = w.context.getD emptyContext ∧
      (recordSuccess now w s).2 = s.nextId) ∧
    (∀ (now : Int) (f : FailureInput) (s : LearnState) (e : String),
      f.error = some e → (∀ r ∈ s.failedAttempts, r.error.isSome) →
      (recordFailure now f s).2 = .ok s.nextId) ∧
    (∀ (now : Int) (f : FailureInput) (s : LearnState),
      f.error = none →
      (recordFailure now f s).2
        = .error "TypeError: cannot read toLowerCase of undefined" ∧
      (recordFailure now f s).1.failedAttempts
        = s.failedAttempts ++ [failureRecordOf now f s]) := by
  refine ⟨fun now w s => ⟨rfl, rfl, rfl, rfl, rfl, rfl⟩, ?_, ?_⟩
  · intro now f s e he hall
    exact (recordFailure_ok now f s e he hall).choose_spec.2.2.2
  · intro now f s he
    have hlff : learnFromFailure now (failureRecordOf now f s)
        (failurePushState now f s)
        = .error "TypeError: cannot read toLowerCase of undefined" := by
      have hce : classifyError (failureRecordOf now f s).error
          = .error "TypeError: cannot read toLowerCase of undefined" := by
        show classifyError f.error = _
        rw [he]
        rfl
      rw [learnFromFailure, hce]
      rfl
    constructor
    · show (match learnFromFailure now (failureRecordOf now f s)
          (failurePushState now f s) with
        | .ok s2 => (s2, Except.ok (failureRecordOf now f s).id)
        | .error err => (failurePushState now f s, Except.error err)).2 = _
      rw [hlff]
    · show (match learnFromFailure now (failureRecordOf now f s)
          (failurePushState now f s) with
        | .ok s2 => (s2, Except.ok (failureRecordOf now f s).id)
        | .error err => (failurePushState now f s, Except.error err)).1.failedAttempts = _
      rw [hlff]
      rfl

/-- C4 witness: the three parts discharged on concrete inputs: an
all-absent success input, a failure with error `"boom"`, and a failure
with no error. -/
theorem record_input_defaulting_witness :
    (recordSuccess 0 (WorkflowInput.mk none none .undef none none none none)
        initialState).2 = initialState.nextId ∧
    (recordFailure 0 (FailureInput.mk none (some "boom") none none none)
        initialState).2 = .ok initialState.nextId ∧
    (recordFailure 0 (FailureInput.mk none none none none none) initialState).2
      = .error "TypeError: cannot read toLowerCase of undefined" :=
  ⟨(record_input_defaulting.1 0 (WorkflowInput.mk none none .undef none none none none)
      initialState).2.2.2.2.2,
    record_input_defaulting.2.1 0 (FailureInput.mk none (some "boom") none none none)
      initialState "boom" rfl (by simp [initialState]),
    (record_input_defaulting.2.2 0 (FailureInput.mk none none none none none)
      initialState rfl).1⟩

/-! ## C5: duration-estimate merge -/

/-- C5 (code bug): merging a second `duration-estimate` observation for the
same goal does NOT produce the count-weighted average (6000 for 5000 then
7000): duration-estimate candidates are created without a `count` field, so
`existing.count++` stores `NaN` and the averaging formulas evaluate to
`NaN` for `count`, `successRate` and `estimatedDuration` alike.  The store
length is still 1 (the pattern is merged in place, not duplicated). -/
theorem duration_merge_nan :
    ((recordSuccess 0
        (WorkflowInput.mk none none (.num 5000) none none none
          (some (ContextInput.mk (some "research") none)))
        initialState).1.learnedPatterns.map
        (fun p => (p.ptype, p.estimatedDuration)))
      = [(.durationEstimate, JSNum.num 5000)] ∧
    ((recordSuccess 1
        (WorkflowInput.mk none none (.num 7000) none none none
          (some (ContextInput.mk (some "research") none)))
        (recordSuccess 0
          (WorkflowInput.mk none none (.num 5000) none none none
            (some (ContextInput.mk (some "research") none)))
          initialState).1).1.learnedPatterns.map
        (fun p => (p.ptype, p.estimatedDuration, p.count, p.successRate)))
      = [(.durationEstimate, JSNum.nan, JSNum.nan, JSNum.nan)] := by
  decide

/-! ## C8: avoidance-rule occurrence count -/

/-- C8 (code bug): the avoidance rule's `occurrenceCount` is ALWAYS 2: the
failure record is pushed into `failedAttempts` before `_learnFromFailure`
scans it, so the `find` always matches (at latest the record itself), and
stored failure records carry no `occurrenceCount`, so
`(existing.occurrenceCount || 1) + 1` is always 2 — the first occurrence is
not 1, and repeats never accumulate past 2. -/
theorem avoidance_occurrence_always_two :
    (((recordFailure 0
        (FailureInput.mk (some ["a"]) (some "syntax error") none none none)
        initialState).1.learnedPatterns.map
        (fun p => (p.ptype, p.occurrenceCount)))
      = [(.avoidanceRule, JSNum.num 2)]) ∧
    (((recordFailure 2
        (FailureInput.mk (some ["a"]) (some "syntax error") none none none)
        (recordFailure 1
          (FailureInput.mk (some ["a"]) (some "syntax error") none none none)
          (recordFailure 0
            (FailureInput.mk (some ["a"]) (some "syntax error") none none none)
            initialState).1).1).1.learnedPatterns.map
        (fun p => (p.ptype, p.occurrenceCount)))
      = [(.avoidanceRule, JSNum.num 2), (.avoidanceRule, JSNum.num 2),
         (.avoidanceRule, JSNum.num 2)]) := by
  decide

/-! ## C7: template merge duration handling -/

/-- C7 (code bug): on a template merge, `successCount` is incremented, the
context is appended to `examples` and `lastUsed` is refreshed — but the
duration condition is inverted: the merge body reads
`if (!template.estimatedDuration) { existing.estimatedDuration =
template.estimatedDuration; }`, so a candidate WITH a duration leaves the
stored estimate unchanged (the claim expects an overwrite), while a
candidate WITHOUT one overwrites the stored estimate with `undefined`,
erasing it (the claim expects it left unchanged). -/
theorem template_duration_overwrite_inverted :
    (let step1 := StepInput.mk (some "web_search") (some "s") none none .undef
     let step2 := StepInput.mk (some "browser") (some "n") none none .undef
     let w1 := WorkflowInput.mk (some ["web_search", "browser"])
       (some [step1, step2]) (.num 5000) none none none
       (some (ContextInput.mk (some "scrape") none))
     let w2 := WorkflowInput.mk (some ["web_search", "browser"])
       (some [step1, step2]) .undef none none none
       (some (ContextInput.mk (some "scrape") none))
     let w3 := WorkflowInput.mk (some ["web_search", "browser"])
       (some [step1, step2]) (.num 7000) none none none
       (some (ContextInput.mk (some "scrape") none))
     let store1 := (extractFromWorkflow 0 w1 [] 0).2.1
     (store1.map (fun t => (t.estimatedDuration, t.successCount, t.examples.length))
        = [(JSNum.num 5000, JSNum.num 1, 1)]) ∧
     ((extractFromWorkflow 1 w2 store1 1).1.map (fun r =>
          (r.1, r.2.estimatedDuration, r.2.successCount, r.2.lastUsed,
            r.2.examples.length))
        = some (true, JSNum.undef, JSNum.num 2, (1:Int), 2)) ∧
     ((extractFromWorkflow 1 w3 store1 1).1.map (fun r =>
          (r.1, r.2.estimatedDuration))
        = some (true, JSNum.num 5000))) := by
  decide

/-! ## C1: merge identity and store invariant -/

lemma patternsMatch_merge_left (c x q : Pattern) :
    patternsMatch (applySuccessMerge c x) q = patternsMatch x q := rfl

lemma patternsMatch_merge_right (c x q : Pattern) :
    patternsMatch q (applySuccessMerge c x) = patternsMatch q x := rfl

lemma patternsMatch_symm (p q : Pattern) :
    patternsMatch p q = patternsMatch q p := by
  rw [patternsMatch, patternsMatch]
  by_cases h : p.ptype = q.ptype
  · rw [if_neg (by simp [h]), if_neg (by simp [h.symm])]
    rw [h]
    cases q.ptype <;> simp [eq_comm, List.Perm.eq_nil]
  · rw [if_pos (by simp [h]), if_pos (by simp [Ne.symm h])]

lemma patternsMatch_avoidance_right (a p : Pattern)
    (h : p.ptype = .avoidanceRule) : patternsMatch a p = false := by
  by_cases hc : a.ptype = p.ptype
  · rw [patternsMatch, if_neg (by simp [hc]), hc, h]
  · rw [patternsMatch, if_pos (by simp [hc])]

lemma mem_updateFirst {α : Type} {pred : α → Bool} {f : α → α} {y : α} :
    ∀ {l : List α}, y ∈ updateFirst pred f l → ∃ x ∈ l, y = x ∨ y = f x := by
  intro l
  induction l with
  | nil => intro h; simp [updateFirst] at h
  | cons a l ih =>
    intro h
    rw [updateFirst] at h
    by_cases hp : pred a
    · rw [if_pos hp] at h
      rcases List.mem_cons.mp h with h | h
      · exact ⟨a, by simp, Or.inr h⟩
      · exact ⟨y, by simp [h], Or.inl rfl⟩
    · rw [if_neg hp] at h
      rcases List.mem_cons.mp h with h | h
      · exact ⟨a, by simp, Or.inl h⟩
      · obtain ⟨x, hx, hy⟩ := ih h
        exact ⟨x, by simp [hx], hy⟩

lemma updateFirst_pairwise {α : Type} {R : α → α → Prop} {pred : α → Bool}
    {f : α → α} (hl : ∀ x y, R (f x) y ↔ R x y) (hr : ∀ x y, R x (f y) ↔ R x y) :
    ∀ {l : List α}, l.Pairwise R → (updateFirst pred f l).Pairwise R := by
  intro l h
  induction l with
  | nil => simp [updateFirst]
  | cons a l ih =>
    rcases List.pairwise_cons.mp h with ⟨ha, hrest⟩
    rw [updateFirst]
    by_cases hp : pred a
    · rw [if_pos hp]
      exact List.pairwise_cons.mpr ⟨fun y hy => (hl _ _).mpr (ha y hy), hrest⟩
    · rw [if_neg hp]
      refine List.pairwise_cons.mpr ⟨?_, ih hrest⟩
      intro y hy
      obtain ⟨x, hx, hcase⟩ := mem_updateFirst hy
      rcases hcase with hcase | hcase
      · rw [hcase]; exact ha x hx
      · rw [hcase]; exact (hr _ _).mpr (ha x hx)

lemma find?_first {α : Type} (pred : α → Bool) (p : α) (post : List α) :
    ∀ (pre : List α), (∀ q ∈ pre, pred q = false) → pred p = true →
      (pre ++ p :: post).find? pred = some p := by
  intro pre
  induction pre with
  | nil => intro _ hp; simp [List.find?, hp]
  | cons a pre ih =>
    intro h hp
    have ha : pred a = false := h a (by simp)
    rw [List.cons_append, List.find?, ha]
    exact ih (fun q hq => h q (by simp [hq])) hp

lemma updateFirst_first {α : Type} (pred : α → Bool) (f : α → α) (p : α)
    (post : List α) : ∀ (pre : List α), (∀ q ∈ pre, pred q = false) →
      pred p = true →
      updateFirst pred f (pre ++ p :: post) = pre ++ f p :: post := by
  intro pre
  induction pre with
  | nil => intro _ hp; simp [updateFirst, hp]
  | cons a pre ih =>
    intro h hp
    have ha : pred a = false := h a (by simp)
    rw [List.cons_append, updateFirst, if_neg (by simp [ha]),
      ih (fun q hq => h q (by simp [hq])) hp, List.cons_append]

lemma mergeOnePattern_length (now : Int) (st : List Pattern × Nat) (cand : Pattern)
    (hex : ∃ p ∈ st.1, patternsMatch p cand = true) :
    (mergeOnePattern now st cand).1.length = st.1.length := by
  rw [mergeOnePattern]
  rcases hfind : st.1.find? (fun p => patternsMatch p cand) with _ | p
  · obtain ⟨p, hp, hm⟩ := hex
    have := List.find?_eq_none.mp hfind p hp
    simp [hm] at this
  · simp only []
    exact updateFirst_length _ _ _

lemma mergeOnePattern_match_update (now : Int) (st : List Pattern × Nat)
    (cand p : Pattern) (pre post : List Pattern)
    (hsplit : st.1 = pre ++ p :: post)
    (hpre : ∀ q ∈ pre, patternsMatch q cand = false)
    (hp : patternsMatch p cand = true) :
    (mergeOnePattern now st cand).1 = pre ++ applySuccessMerge cand p :: post := by
  have hfind : st.1.find? (fun q => patternsMatch q cand) = some p := by
    rw [hsplit]
    exact find?_first _ p post pre hpre hp
  rw [mergeOnePattern, hfind]
  simp only []
  rw [hsplit]
  exact updateFirst_first _ _ p post pre hpre hp

lemma updateFirst_match_exists (cand q : Pattern) :
    ∀ (l : List Pattern), (∃ p ∈ l, patternsMatch p q = true) →
      ∃ p ∈ updateFirst (fun p => patternsMatch p cand)
          (applySuccessMerge cand) l,
        patternsMatch p q = true := by
  intro l
  induction l with
  | nil => intro h; simp at h
  | cons a l ih =>
    intro h
    obtain ⟨p, hp, hm⟩ := h
    rw [updateFirst]
    rcases List.mem_cons.mp hp with h | h
    · by_cases hpa : patternsMatch a cand
      · rw [if_pos hpa]
        exact ⟨applySuccessMerge cand a, by simp,
          by rw [patternsMatch_merge_left, ← h]; exact hm⟩
      · rw [if_neg hpa]
        exact ⟨a, by simp, by rw [← h]; exact hm⟩
    · by_cases hpa : patternsMatch a cand
      · rw [if_pos hpa]
        exact ⟨p, by simp [h], hm⟩
      · rw [if_neg hpa]
        obtain ⟨r, hr, hrm⟩ := ih ⟨p, h, hm⟩
        exact ⟨r, by simp [hr], hrm⟩

lemma mergeOnePattern_match_exists (now : Int) (st : List Pattern × Nat)
    (cand q : Pattern)
    (hc : ∃ p ∈ st.1, patternsMatch p cand = true)
    (hq : ∃ p ∈ st.1, patternsMatch p q = true) :
    ∃ p ∈ (mergeOnePattern now st cand).1, patternsMatch p q = true := by
  rw [mergeOnePattern]
  rcases hfind : st.1.find? (fun p => patternsMatch p cand) with _ | p0
  · obtain ⟨p, hp, hm⟩ := hc
    have := List.find?_eq_none.mp hfind p hp
    simp [hm] at this
  · simp only []
    exact updateFirst_match_exists cand q st.1 hq

lemma foldl_merge_length (now : Int) :
    ∀ (cands : List Pattern) (st : List Pattern × Nat),
      (∀ cand ∈ cands, ∃ p ∈ st.1, patternsMatch p cand = true) →
      (cands.foldl (mergeOnePattern now) st).1.length = st.1.length := by
  intro cands
  induction cands with
  | nil => intro st _; rfl
  | cons c cs ih =>
    intro st h
    rw [List.foldl_cons]
    have hc : ∃ p ∈ st.1, patternsMatch p c = true := h c (by simp)
    have hnext : ∀ cand ∈ cs, ∃ p ∈ (mergeOnePattern now st c).1,
        patternsMatch p cand = true := fun cand hcand =>
      mergeOnePattern_match_exists now st c cand hc (h cand (by simp [hcand]))
    rw [ih (mergeOnePattern now st c) hnext, mergeOnePattern_length now st c hc]

lemma learnFromFailure_cases (now : Int) (record : FailureRecord)
    (s : LearnState) :
    (∃ e, learnFromFailure now record s = .error e ) ∨
    (∃ pat : Pattern, pat.ptype = .avoidanceRule ∧
      learnFromFailure now record s = .ok
        { s with learnedPatterns := s.learnedPatterns ++ [pat],
                 nextId := s.nextId + 1 }) := by
  cases her : record.error with
  | none =>
    left
    refine ⟨"TypeError: cannot read toLowerCase of undefined", ?_⟩
    have hce : classifyError record.error
        = .error "TypeError: cannot read toLowerCase of undefined" := by
      rw [her]; rfl
    rw [learnFromFailure, hce]
    rfl
  | some e =>
    have hce : classifyError record.error = .ok (classifyMessage e) := by
      rw [her]; rfl
    cases hf : findFailureMatch (classifyMessage e) record.toolsUsed
        s.failedAttempts with
    | error err =>
      left
      refine ⟨err, ?_⟩
      rw [learnFromFailure, hce, exceptBindOk, hf]
      rfl
    | ok res =>
      right
      cases res with
      | some existing =>
        refine ⟨{ basePattern with
            ptype := .avoidanceRule, id := s.nextId, createdAt := now,
            errorType := some (classifyMessage e),
            avoidCombination := record.toolsUsed,
            recommendedAlternative := record.suggestion,
            occurrenceCount :=
              JSNum.add existing.occurrenceCount.orOne (.num 1) }, rfl, ?_⟩
        rw [learnFromFailure, hce, exceptBindOk, hf, exceptBindOk]
      | none =>
        refine ⟨{ basePattern with
            ptype := .avoidanceRule, id := s.nextId, createdAt := now,
            errorType := some (classifyMessage e),
            avoidCombination := record.toolsUsed,
            recommendedAlternative := record.suggestion,
            occurrenceCount := .num 1 }, rfl, ?_⟩
        rw [learnFromFailure, hce, exceptBindOk, hf, exceptBindOk]

/-- The pairwise no-match invariant: no two stored patterns satisfy
`_patternsMatch`, under the code's own identity comparisons. -/
def StoreDisjoint (l : List Pattern) : Prop :=
  l.Pairwise (fun p q => patternsMatch p q = false)

lemma mergeOnePattern_disjoint (now : Int) (st : List Pattern × Nat)
    (cand : Pattern) (h : StoreDisjoint st.1) :
    StoreDisjoint (mergeOnePattern now st cand).1 := by
  rw [mergeOnePattern]
  rcases hfind : st.1.find? (fun p => patternsMatch p cand) with _ | p0
  · simp only []
    rw [StoreDisjoint, List.pairwise_append]
    refine ⟨h, by simp, ?_⟩
    intro a ha b hb
    rw [List.mem_singleton.mp hb]
    have hno := List.find?_eq_none.mp hfind a ha
    show patternsMatch a cand = false
    revert hno
    cases patternsMatch a cand <;> simp
  · simp only []
    exact updateFirst_pairwise
      (fun x y => by rw [patternsMatch_merge_left])
      (fun x y => by rw [patternsMatch_merge_right]) h

lemma foldl_merge_disjoint (now : Int) :
    ∀ (cands : List Pattern) (st : List Pattern × Nat), StoreDisjoint st.1 →
      StoreDisjoint (cands.foldl (mergeOnePattern now) st).1 := by
  intro cands
  induction cands with
  | nil => exact fun st h => h
  | cons c cs ih =>
    intro st h
    rw [List.foldl_cons]
    exact ih _ (mergeOnePattern_disjoint now st c h)

/-- Every reachable pattern store is pairwise non-matching. -/
lemma reachable_disjoint : ∀ {s : LearnState}, Reachable s →
    StoreDisjoint s.learnedPatterns := by
  intro s h
  induction h with
  | init => exact List.Pairwise.nil
  | success now w hr ih =>
    exact foldl_merge_disjoint now _ _ ih
  | @failure now f s hr ih =>
    show StoreDisjoint (match learnFromFailure now (failureRecordOf now f s)
        (failurePushState now f s) with
      | .ok s2 => (s2, Except.ok (failureRecordOf now f s).id)
      | .error err => (failurePushState now f s, Except.error err)).1.learnedPatterns
    rcases learnFromFailure_cases now (failureRecordOf now f s)
        (failurePushState now f s) with ⟨e, he⟩ | ⟨pat, hpt, hok⟩
    · rw [he]
      exact ih
    · rw [hok]
      show StoreDisjoint (s.learnedPatterns ++ [pat])
      rw [StoreDisjoint, List.pairwise_append]
      refine ⟨ih, by simp, ?_⟩
      intro a _ b hb
      rw [List.mem_singleton.mp hb]
      exact patternsMatch_avoidance_right a pat hpt

/-- C1 (counterexample): the claim fails for the stated identities.  With
set equality as the capability-combination identity: recording
`capabilities = ["a","a","b"]` and then `["a","b"]` — set-equal identifying
fields — grows the store from 1 to 2 entries instead of merging, because
`_patternsMatch` compares the SORTED LISTS (`["a","a","b"] ≠ ["a","b"]`),
i.e. multiset rather than set equality; the final store holds two
capability-combination patterns with equal capability sets.  And for a
matched duration-estimate candidate the count clause fails: the merged
pattern's count becomes `NaN`, not one greater (such patterns carry no
count field). -/
theorem merge_identity_counterexample :
    (((recordSuccess 0
        (WorkflowInput.mk none none .undef none (some ["a", "a", "b"]) none none)
        initialState).1.learnedPatterns.length = 1) ∧
      ((recordSuccess 1
          (WorkflowInput.mk none none .undef none (some ["a", "b"]) none none)
          (recordSuccess 0
            (WorkflowInput.mk none none .undef none (some ["a", "a", "b"]) none none)
            initialState).1).1.learnedPatterns.map
          (fun p => (p.ptype, p.capabilities.toFinset)))
        = [(.capabilityCombination, ({"a", "b"} : Finset String)),
           (.capabilityCombination, ({"a", "b"} : Finset String))]) ∧
    (((recordSuccess 1
        (WorkflowInput.mk none none (.num 7000) none none none
          (some (ContextInput.mk (some "g") none)))
        (recordSuccess 0
          (WorkflowInput.mk none none (.num 5000) none none none
            (some (ContextInput.mk (some "g") none)))
          initialState).1).1.learnedPatterns.map (fun p => p.count))
      = [JSNum.nan]) := by
  decide

/-- C1 (amended): with the code's identities — exact ordered-sequence
equality for tool-sequence, equality of the SORTED capability lists
(multiset equality) for capability-combination, exact context equality for
duration-estimate — a candidate matching a stored pattern is merged in
place: the store keeps its length and exactly the first matching pattern
is updated, its count (when it is a finite number `n`, as for tool-sequence
and capability-combination patterns) becoming exactly `n + 1` (a matched
duration-estimate pattern has no count and gets `NaN`, see the
counterexample); a `recordSuccess` all of whose derived candidates match
leaves the store length unchanged; and at no reachable state do two stored
patterns of the same mergeable variant have equal identifying fields under
these identities (`_patternsMatch` is symmetric and pairwise false on the
store). -/
theorem merge_identity_amended :
    (∀ (now : Int) (st : List Pattern × Nat) (cand : Pattern),
      (∃ p ∈ st.1, patternsMatch p cand = true) →
      (mergeOnePattern now st cand).1.length = st.1.length) ∧
    (∀ (cand p : Pattern) (n : ℚ), p.count = .num n →
      (applySuccessMerge cand p).count = .num (n + 1)) ∧
    (∀ (now : Int) (st : List Pattern × Nat) (cand p : Pattern)
        (pre post : List Pattern), st.1 = pre ++ p :: post →
      (∀ q ∈ pre, patternsMatch q cand = false) →
      patternsMatch p cand = true →
      (mergeOnePattern now st cand).1 = pre ++ applySuccessMerge cand p :: post) ∧
    (∀ (now : Int) (w : WorkflowInput) (s : LearnState),
      (∀ cand ∈ extractCandidates (successRecordOf now w s),
        ∃ p ∈ s.learnedPatterns, patternsMatch p cand = true) →
      (recordSuccess now w s).1.learnedPatterns.length
        = s.learnedPatterns.length) ∧
    (∀ {s : LearnState}, Reachable s →
      s.learnedPatterns.Pairwise (fun p q => patternsMatch p q = false)) ∧
    (∀ p q : Pattern, patternsMatch p q = patternsMatch q p) := by
  refine ⟨mergeOnePattern_length, ?_, mergeOnePattern_match_update, ?_,
    fun {s} h => reachable_disjoint h, patternsMatch_symm⟩
  · intro cand p n hp
    show p.count.inc = _
    rw [hp]
    show JSNum.num (qadd n 1) = _
    rw [qadd_eq]
  · intro now w s h
    exact foldl_merge_length now _ _ h

/-- A concrete stored tool-sequence pattern, used to instantiate the merge
facts. -/
def toolSeqSample : Pattern :=
  { basePattern with
      ptype := .toolSequence, sequence := ["a", "b"], useCase := some "g",
      successRate := .num 1, count := .num 1 }

/-- A concrete capability-combination workflow input. -/
def capWorkflowSample : WorkflowInput :=
  WorkflowInput.mk none none .undef none (some ["a", "b"]) none none

/-- C1 witness: the amended merge facts discharged on a one-pattern store
whose stored tool-sequence pattern matches the incoming candidate, on a
repeated capability-combination workflow, and on the initial state. -/
theorem merge_identity_amended_witness :
    (mergeOnePattern 0 ([toolSeqSample], 0) toolSeqSample).1.length = 1 ∧
    (applySuccessMerge toolSeqSample toolSeqSample).count = .num (1 + 1) ∧
    (mergeOnePattern 0 ([toolSeqSample], 0) toolSeqSample).1
      = [] ++ applySuccessMerge toolSeqSample toolSeqSample :: [] ∧
    (recordSuccess 1 capWorkflowSample
        (recordSuccess 0 capWorkflowSample initialState).1).1.learnedPatterns.length
      = (recordSuccess 0 capWorkflowSample
          initialState).1.learnedPatterns.length ∧
    initialState.learnedPatterns.Pairwise
      (fun p q => patternsMatch p q = false) ∧
    patternsMatch toolSeqSample basePattern
      = patternsMatch basePattern toolSeqSample :=
  ⟨merge_identity_amended.1 0 ([toolSeqSample], 0) toolSeqSample (by decide),
    merge_identity_amended.2.1 toolSeqSample toolSeqSample 1 rfl,
    merge_identity_amended.2.2.1 0 ([toolSeqSample], 0) toolSeqSample
      toolSeqSample [] [] rfl (by simp) (by decide),
    merge_identity_amended.2.2.2.1 1 capWorkflowSample
      (recordSuccess 0 capWorkflowSample initialState).1 (by decide),
    merge_identity_amended.2.2.2.2.1 Reachable.init,
    merge_identity_amended.2.2.2.2.2 toolSeqSample basePattern⟩
